import Mathlib

/-!
Verification of the offlinestt orchestration core: a shallow embedding of the
recording/transcription session controller (`src/tui.py`) and of the streaming
transcription writer (`src/transcribe.py`), with theorems settling the
specification's claims about body formatting, emission laziness, durability,
mutual exclusion, auto-start, conversion failure, process stopping, audio
resolution, throughput metrics and the model cache.
-/

namespace OfflineSTT

/-! ### Transcript body formatting (transcribe.py, emit loop lines 179-210) -/

/-- Python's `str.strip()`: remove leading and trailing whitespace characters. -/
def strip (s : String) : String :=
  ⟨((s.data.dropWhile Char.isWhitespace).reverse.dropWhile Char.isWhitespace).reverse⟩

/-- The string appended for the segment at 0-based index `i` by one iteration of
the emit loop in `transcribe.py`: a space, the stripped segment text, a newline,
and an extra blank line when `i % line_break_interval == line_break_interval - 1`. -/
def segWrite (N i : Nat) (t : String) : String :=
  " " ++ strip t ++ "\n" ++ (if i % N == N - 1 then "\n" else "")

/-- The transcript body produced by the emit loop of `transcribe.py` starting at
0-based segment index `i`. -/
def emitBodyAux (N : Nat) : Nat → List String → String
  | _, [] => ""
  | i, t :: ts => segWrite N i t ++ emitBodyAux N (i + 1) ts

/-- The complete transcript body written by `transcribe.py` for the given raw
segment texts and line-break interval `N`. -/
def emitBody (texts : List String) (N : Nat) : String :=
  emitBodyAux N 0 texts

/-- Body as the specification words it: one line per trimmed segment text, in
emission order, with exactly one blank line after every `N`-th segment (1-based
position `k`, blank iff `k % N = 0`) and none elsewhere. -/
def specBodyAux (N : Nat) : Nat → List String → String
  | _, [] => ""
  | k, t :: ts =>
      " " ++ strip t ++ "\n" ++ (if k % N == 0 then "\n" else "")
        ++ specBodyAux N (k + 1) ts

/-- The specification-side transcript body: segments numbered from 1. -/
def specBody (texts : List String) (N : Nat) : String :=
  specBodyAux N 1 texts

lemma mod_pred_iff_succ_mod (N i : Nat) (hN : 1 ≤ N) :
    i % N = N - 1 ↔ (i + 1) % N = 0 := by
  have hr : i % N < N := Nat.mod_lt _ hN
  constructor
  · intro h
    have h1 : (i % N + 1) % N = (i + 1) % N := Nat.mod_add_mod i N 1
    have h2 : i % N + 1 = N := by omega
    rw [← h1, h2, Nat.mod_self]
  · intro h
    by_contra hne
    have h1 : (i % N + 1) % N = (i + 1) % N := Nat.mod_add_mod i N 1
    have hlt : i % N + 1 < N := by omega
    have := Nat.mod_eq_of_lt hlt
    omega

lemma segWrite_eq_spec (N i : Nat) (hN : 1 ≤ N) (t : String) :
    segWrite N i t = " " ++ strip t ++ "\n" ++ (if (i + 1) % N == 0 then "\n" else "") := by
  unfold segWrite
  have h := mod_pred_iff_succ_mod N i hN
  by_cases hc : (i + 1) % N = 0
  · have : i % N = N - 1 := h.mpr hc
    simp [this, hc]
  · have : ¬ i % N = N - 1 := fun hx => hc (h.mp hx)
    simp [this, hc]

lemma emitBodyAux_eq_specBodyAux (N : Nat) (hN : 1 ≤ N) :
    ∀ (texts : List String) (i : Nat), emitBodyAux N i texts = specBodyAux N (i + 1) texts := by
  intro texts
  induction texts with
  | nil => intro i; rfl
  | cons t ts ih =>
      intro i
      show segWrite N i t ++ emitBodyAux N (i + 1) ts
          = " " ++ strip t ++ "\n" ++ (if (i + 1) % N == 0 then "\n" else "")
            ++ specBodyAux N (i + 1 + 1) ts
      rw [segWrite_eq_spec N i hN, ih (i + 1)]

/-- C1: for every finite segment sequence and every line-break interval `N ≥ 1`,
the persisted transcript body equals the concatenation of the trimmed segment
texts in emission order, one line per segment, with exactly one blank line after
every `N`-th segment and none elsewhere; in particular at `N = 2` on segments
`["a","b","c","d"]` the body is byte-exactly `" a\n b\n\n c\n d\n\n"`. -/
theorem c1_body_format :
    (∀ (texts : List String) (N : Nat), 1 ≤ N → emitBody texts N = specBody texts N) ∧
    emitBody ["a", "b", "c", "d"] 2 = " a\n b\n\n c\n d\n\n" := by
  constructor
  · intro texts N hN
    unfold emitBody specBody
    exact emitBodyAux_eq_specBodyAux N hN texts 0
  · decide

/-- Concrete instantiation of the universally quantified part of `c1_body_format`. -/
theorem c1_body_format_witness :
    1 ≤ 3 ∧ emitBody ["x", "y", "z"] 3 = specBody ["x", "y", "z"] 3 :=
  ⟨by decide, c1_body_format.1 ["x", "y", "z"] 3 (by decide)⟩

/-! ### Emit-stage event trace (tui.py, run_transcription lines 1128-1151) -/

/-- Observable events of the Emit stage of `RecordTranscribeTUI.run_transcription`:
pulling one segment from the model's generator, a progress update, a write of
one segment's text to the output file, and the cooperative yield
(`await asyncio.sleep(0)`). -/
inductive EmitEvent where
  | obtain : EmitEvent
  | progress : EmitEvent
  | write : String → EmitEvent
  | yieldCtl : EmitEvent
deriving DecidableEq

/-- The event trace of the Emit stage in `tui.py`: the statement
`segments_list = await asyncio.to_thread(list, segments_gen)` consumes the whole
generator (one `obtain` per segment) in a single blocking call, and only then
the per-segment loop updates progress, writes the stripped text, and yields. -/
def tuiEmitTrace (texts : List String) : List EmitEvent :=
  (texts.map fun _ => EmitEvent.obtain) ++
    texts.flatMap fun t => [EmitEvent.progress, EmitEvent.write (strip t), EmitEvent.yieldCtl]

/-- Scans a trace checking that after every `obtain` a `yieldCtl` occurs before
the next `obtain`; `canObtain` records whether a yield has happened since the
last `obtain` (initially `true`). -/
def obtainsSeparatedByYield : List EmitEvent → Bool → Bool
  | [], _ => true
  | e :: rest, canObtain =>
      match e with
      | .obtain => canObtain && obtainsSeparatedByYield rest false
      | .yieldCtl => obtainsSeparatedByYield rest true
      | _ => obtainsSeparatedByYield rest canObtain

/-- The claim's lazy-consumption property for the Emit stage: between any two
successive pulls from the model's segment generator there is a cooperative
yield (a cancellation observation point). -/
def lazyEmission (texts : List String) : Prop :=
  obtainsSeparatedByYield (tuiEmitTrace texts) true = true

/-- The number of segments pulled from the generator before the first
cooperative yield of the trace. -/
def obtainsBeforeFirstYield : List EmitEvent → Nat
  | [] => 0
  | e :: rest =>
      match e with
      | .yieldCtl => 0
      | .obtain => obtainsBeforeFirstYield rest + 1
      | _ => obtainsBeforeFirstYield rest

/-- The sequence of texts written to the output file, in trace order. -/
def writesOf : List EmitEvent → List String
  | [] => []
  | .write t :: rest => t :: writesOf rest
  | _ :: rest => writesOf rest

/-- The number of cooperative yields in a trace. -/
def yieldsOf : List EmitEvent → Nat
  | [] => 0
  | .yieldCtl :: rest => yieldsOf rest + 1
  | _ :: rest => yieldsOf rest

/-- C2 counterexample: with two segments, the Emit stage of
`run_transcription` pulls both segments from the model before any yield, so a
cancellation point does not separate successive segment acquisitions; the
claimed lazy one-at-a-time consumption fails already on `["a", "b"]`. -/
theorem c2_lazy_counterexample : ¬ lazyEmission ["a", "b"] := by
  unfold lazyEmission
  decide

lemma obtainsBeforeFirstYield_obtain (xs : List EmitEvent) :
    obtainsBeforeFirstYield (EmitEvent.obtain :: xs) = obtainsBeforeFirstYield xs + 1 := rfl

lemma writesOf_obtain (xs : List EmitEvent) :
    writesOf (EmitEvent.obtain :: xs) = writesOf xs := rfl

lemma writesOf_step (t : String) (xs : List EmitEvent) :
    writesOf (EmitEvent.progress :: EmitEvent.write t :: EmitEvent.yieldCtl :: xs)
      = t :: writesOf xs := rfl

lemma yieldsOf_obtain (xs : List EmitEvent) :
    yieldsOf (EmitEvent.obtain :: xs) = yieldsOf xs := rfl

lemma yieldsOf_step (t : String) (xs : List EmitEvent) :
    yieldsOf (EmitEvent.progress :: EmitEvent.write t :: EmitEvent.yieldCtl :: xs)
      = yieldsOf xs + 1 := rfl

lemma obtainsBeforeFirstYield_obtain_block :
    ∀ (ts : List String) (rest : List EmitEvent),
      obtainsBeforeFirstYield ((ts.map fun _ => EmitEvent.obtain) ++ rest)
        = ts.length + obtainsBeforeFirstYield rest := by
  intro ts
  induction ts with
  | nil => intro rest; simp
  | cons t ts ih =>
      intro rest
      rw [List.map_cons, List.cons_append, obtainsBeforeFirstYield_obtain, ih rest]
      simp
      omega

lemma obtainsBeforeFirstYield_loop (texts : List String) :
    obtainsBeforeFirstYield
      (texts.flatMap fun t => [EmitEvent.progress, EmitEvent.write (strip t), EmitEvent.yieldCtl]) = 0 := by
  cases texts with
  | nil => rfl
  | cons t ts => rfl

lemma writesOf_obtain_block :
    ∀ (ts : List String) (rest : List EmitEvent),
      writesOf ((ts.map fun _ => EmitEvent.obtain) ++ rest) = writesOf rest := by
  intro ts
  induction ts with
  | nil => intro rest; simp
  | cons t ts ih =>
      intro rest
      rw [List.map_cons, List.cons_append, writesOf_obtain, ih rest]

lemma writesOf_loop (texts : List String) :
    writesOf
      (texts.flatMap fun t => [EmitEvent.progress, EmitEvent.write (strip t), EmitEvent.yieldCtl])
      = texts.map strip := by
  induction texts with
  | nil => rfl
  | cons t ts ih =>
      rw [List.flatMap_cons, List.map_cons]
      show writesOf (EmitEvent.progress :: EmitEvent.write (strip t) :: EmitEvent.yieldCtl :: _)
        = strip t :: ts.map strip
      rw [writesOf_step]
      exact congrArg (List.cons (strip t)) ih

lemma yieldsOf_obtain_block :
    ∀ (ts : List String) (rest : List EmitEvent),
      yieldsOf ((ts.map fun _ => EmitEvent.obtain) ++ rest) = yieldsOf rest := by
  intro ts
  induction ts with
  | nil => intro rest; simp
  | cons t ts ih =>
      intro rest
      rw [List.map_cons, List.cons_append, yieldsOf_obtain, ih rest]

lemma yieldsOf_loop (texts : List String) :
    yieldsOf
      (texts.flatMap fun t => [EmitEvent.progress, EmitEvent.write (strip t), EmitEvent.yieldCtl])
      = texts.length := by
  induction texts with
  | nil => rfl
  | cons t ts ih =>
      rw [List.flatMap_cons, List.length_cons]
      show yieldsOf (EmitEvent.progress :: EmitEvent.write (strip t) :: EmitEvent.yieldCtl :: _)
        = ts.length + 1
      rw [yieldsOf_step]
      exact congrArg (· + 1) ih

/-- C2 amended: the Emit stage first materializes the model's entire segment
sequence in one blocking call — every segment is obtained before the first
cooperative yield — and only then, for each segment of the in-memory list,
writes the stripped text and yields once; cancellation requested during
decoding is therefore observed only after the whole sequence has been decoded. -/
theorem c2_eager_emission (texts : List String) :
    obtainsBeforeFirstYield (tuiEmitTrace texts) = texts.length ∧
    writesOf (tuiEmitTrace texts) = texts.map strip ∧
    yieldsOf (tuiEmitTrace texts) = texts.length := by
  unfold tuiEmitTrace
  refine ⟨?_, ?_, ?_⟩
  · rw [obtainsBeforeFirstYield_obtain_block, obtainsBeforeFirstYield_loop]
    omega
  · rw [writesOf_obtain_block, writesOf_loop]
  · rw [yieldsOf_obtain_block, yieldsOf_loop]

/-! ### Buffered file writes and crash durability
(transcribe.py lines 137-142 and 160-217; Python file objects buffer writes in
memory and make them durable on `close`, i.e. at the end of a `with` block;
neither source file calls `flush` or `fsync` inside the emit loop) -/

/-- A file as seen by the buffered writer: the bytes durably on disk and the
bytes still sitting in the in-memory buffer of the open file object. -/
structure FileState where
  disk : String
  buffer : String
deriving DecidableEq

/-- `file.write(s)`: appends to the in-memory buffer only. -/
def writeBuf (fs : FileState) (s : String) : FileState :=
  { fs with buffer := fs.buffer ++ s }

/-- Closing the file object (end of a `with` block): the buffer is flushed to
disk. -/
def closeFile (fs : FileState) : FileState :=
  { disk := fs.disk ++ fs.buffer, buffer := "" }

/-- The header block written by `transcribe.py` (lines 137-142). -/
def headerText (audioName modelSize language : String) : String :=
  "# Transcription Results\n\n## Audio File: " ++ audioName ++
    "\n\n## Model: " ++ modelSize ++ "\n\n## Language: " ++ language ++
    "\n\n## Transcription:\n\n"

/-- `transcribe.py` header phase: `with open(output_path, "w")` writes the
header and the `with` block closes the file, making the header durable. -/
def writeHeader (header : String) : FileState :=
  closeFile (writeBuf ⟨"", ""⟩ header)

/-- The emit loop of `transcribe.py` performing buffered writes: one
`segWrite` per segment starting at 0-based index `i`, no flush in between. -/
def emitWrites (N : Nat) : Nat → List String → FileState → FileState
  | _, [], fs => fs
  | i, t :: ts, fs => emitWrites N (i + 1) ts (writeBuf fs (segWrite N i t))

/-- The file state if the run crashes after the header phase and the first `k`
segment writes of the emit loop, before the body file object is closed. -/
def crashState (header : String) (texts : List String) (N k : Nat) : FileState :=
  emitWrites N 0 (texts.take k) (writeHeader header)

/-- The claim's durability property: after any number `k` of segment writes,
the bytes on disk are the header followed by the body of the first `k`
segments — no already-emitted segment text is lost on a crash. -/
def durableAfterEach (header : String) (texts : List String) (N : Nat) : Prop :=
  ∀ k, (crashState header texts N k).disk = header ++ emitBody (texts.take k) N

/-- C3 counterexample: the writes of the emit loop are buffered, not flushed,
so after the single segment `"hello"` has been emitted (`k = 1`) the disk still
holds only the header and the segment's text is lost if the process crashes
before the file is closed. -/
theorem c3_durability_counterexample :
    ¬ durableAfterEach (headerText "a.wav" "base" "ru") ["hello"] 5 := by
  intro h
  have h1 := h 1
  have h2 : (crashState (headerText "a.wav" "base" "ru") ["hello"] 5 1).disk
      = headerText "a.wav" "base" "ru" := by decide
  rw [h2] at h1
  have : headerText "a.wav" "base" "ru"
      ≠ headerText "a.wav" "base" "ru" ++ emitBody (["hello"].take 1) 5 := by decide
  exact this h1

lemma emitWrites_state (N : Nat) :
    ∀ (texts : List String) (i : Nat) (fs : FileState),
      emitWrites N i texts fs = ⟨fs.disk, fs.buffer ++ emitBodyAux N i texts⟩ := by
  intro texts
  induction texts with
  | nil =>
      intro i fs
      show fs = ⟨fs.disk, fs.buffer ++ ""⟩
      rw [String.append_empty]
  | cons t ts ih =>
      intro i fs
      show emitWrites N (i + 1) ts (writeBuf fs (segWrite N i t))
        = ⟨fs.disk, fs.buffer ++ (segWrite N i t ++ emitBodyAux N (i + 1) ts)⟩
      rw [ih (i + 1)]
      unfold writeBuf
      simp only
      rw [String.append_assoc]

/-- C3 amended: each `file.write` of the emit loop only appends to the
in-memory buffer of the open file object; the bytes become durable only when
the file is closed at the end of the emit stage. At every intermediate point
the disk therefore holds exactly the header (made durable when the header
`with` block closed), while the body lines of all `k` already-emitted segments
sit in the volatile buffer and are lost on an abrupt crash; the disk content is
still an uncorrupted prefix of the complete document. -/
theorem c3_buffered_crash_state (header : String) (texts : List String) (N k : Nat) :
    (crashState header texts N k).disk = header ∧
    (crashState header texts N k).buffer = emitBody (texts.take k) N := by
  unfold crashState emitBody
  rw [emitWrites_state]
  unfold writeHeader closeFile writeBuf
  simp only
  exact ⟨String.empty_append header, String.empty_append _⟩

/-! ### Session controller (tui.py, RecordTranscribeTUI) -/

/-- The orchestration state of one `RecordTranscribeTUI` session: whether a
recording process handle is held (`recording_process is not None`), whether a
transcription task is live (`transcribe_task is not None and not done`), the
path of the current recording, and the explicitly selected audio file. -/
structure Session where
  recording : Bool
  transcribing : Bool
  currentRecording : Option String
  selectedFile : Option String
deriving DecidableEq

/-- The state at session start (`__init__`, tui.py 768-785). -/
def initSession : Session :=
  { recording := false, transcribing := false, currentRecording := none, selectedFile := none }

/-- `start_recording` (tui.py 913-966): no-op when already recording; rejected
with a reason while transcribing; otherwise picks a new recording path, clears
the selection, and launches the capture tool (which can fail to launch). -/
def start_recording (s : Session) (newPath : String) (recToolFound : Bool) :
    Session × Option String :=
  if s.recording then (s, none)
  else if s.transcribing then
    (s, some "Cannot record while transcription is in progress")
  else
    let s1 := { s with currentRecording := some newPath, selectedFile := none }
    if recToolFound then ({ s1 with recording := true }, none)
    else (s1, some "Error: rec (sox) not found. Please install sox.")

/-- Python `max(audio_files, key=mtime)` over (path, mtime) pairs: keeps the
first element, replacing it only on a strictly greater key. -/
def latest_by_mtime : List (String × Nat) → Option (String × Nat)
  | [] => none
  | f :: fs => some (fs.foldl (fun acc g => if acc.2 < g.2 then g else acc) f)

/-- Audio-source resolution of `action_transcribe` (tui.py 885-901):
explicitly selected file, else the current recording, else the
most-recently-modified audio file of the recordings directory. -/
def resolve_audio (selected currentRec : Option String)
    (dirFiles : List (String × Nat)) : Option String :=
  match selected.or currentRec with
  | some f => some f
  | none => (latest_by_mtime dirFiles).map Prod.fst

/-- `action_transcribe` (tui.py 877-902): rejected with a reason while
recording or while a transcription is already live; otherwise resolves the
audio source and starts the pipeline, or fails when no candidate exists. -/
def action_transcribe (s : Session) (dirFiles : List (String × Nat)) :
    Session × Option String :=
  if s.recording then (s, some "Cannot transcribe while recording")
  else if s.transcribing then (s, some "Transcription already in progress")
  else
    match resolve_audio s.selectedFile s.currentRecording dirFiles with
    | some _ => ({ s with transcribing := true }, none)
    | none => (s, some "No audio files found")

/-- `finish_recording` (tui.py 993-1016): drops the process handle, then
auto-starts transcription when `current_recording` is set and the file exists;
otherwise reports failure. `fileSize` is what `stat` reports; the code reads it
only for the log message. Returns (new state, auto-started?, message). -/
def finish_recording (s : Session) (fileExists : Bool) (fileSize : Nat) :
    Session × Bool × Option String :=
  let s1 := { s with recording := false }
  if s.currentRecording.isSome && fileExists then
    ({ s1 with transcribing := true }, true, some "Recording saved")
  else
    (s1, false, some "Recording failed or was cancelled")

/-- The session-level events that can change the orchestration state. -/
inductive Cmd where
  | startRec (path : String) (toolFound : Bool)
  | stopRec (fileExists : Bool) (fileSize : Nat)
  | pollExited (fileExists : Bool) (fileSize : Nat)
  | transcribe (files : List (String × Nat))
  | taskEnds

/-- One step of the session controller: `stop_recording` and
`check_recording_status` both return immediately when no process handle is
held and otherwise end in `finish_recording`; a finished, cancelled or failed
transcription task clears `transcribe_task`. -/
def step (s : Session) : Cmd → Session
  | .startRec p ok => (start_recording s p ok).1
  | .stopRec e sz => if s.recording then (finish_recording s e sz).1 else s
  | .pollExited e sz => if s.recording then (finish_recording s e sz).1 else s
  | .transcribe files => (action_transcribe s files).1
  | .taskEnds => { s with transcribing := false }

/-- The session state after a sequence of events from the initial state. -/
def runSession (cmds : List Cmd) : Session :=
  cmds.foldl step initSession

/-- The mutual-exclusion invariant: a recording process and a live
transcription never coexist. -/
def mutualExclusion (s : Session) : Prop :=
  s.recording = false ∨ s.transcribing = false

lemma step_preserves_mutex (s : Session) (c : Cmd) (h : mutualExclusion s) :
    mutualExclusion (step s c) := by
  obtain ⟨rec, tr, cur, sel⟩ := s
  cases c with
  | startRec p ok =>
      cases rec <;> cases tr <;> cases ok <;>
        simp_all [step, start_recording, mutualExclusion]
  | stopRec e sz =>
      cases rec <;> cases tr <;> cases e <;> cases cur <;>
        simp_all [step, finish_recording, mutualExclusion]
  | pollExited e sz =>
      cases rec <;> cases tr <;> cases e <;> cases cur <;>
        simp_all [step, finish_recording, mutualExclusion]
  | transcribe files =>
      cases rec <;> cases tr <;>
        cases hr : resolve_audio sel cur files <;>
        simp_all [step, action_transcribe, mutualExclusion]
  | taskEnds =>
      cases rec <;> cases tr <;> simp_all [step, mutualExclusion]

lemma runSession_aux :
    ∀ (cmds : List Cmd) (s : Session), mutualExclusion s →
      mutualExclusion (cmds.foldl step s) := by
  intro cmds
  induction cmds with
  | nil => intro s h; exact h
  | cons c cs ih =>
      intro s h
      exact ih (step s c) (step_preserves_mutex s c h)

/-- C4: starting a recording while a transcription is live is a no-op that
leaves the state unchanged and reports a rejection reason; symmetrically,
starting a transcription while a recording process is held is a rejected
no-op; and along every event sequence from the initial state a recording
process and a live transcription never coexist. -/
theorem c4_mutual_exclusion :
    (∀ (s : Session) (path : String) (ok : Bool),
        s.recording = false → s.transcribing = true →
        start_recording s path ok
          = (s, some "Cannot record while transcription is in progress")) ∧
    (∀ (s : Session) (files : List (String × Nat)),
        s.recording = true →
        action_transcribe s files = (s, some "Cannot transcribe while recording")) ∧
    (∀ cmds : List Cmd, mutualExclusion (runSession cmds)) := by
  refine ⟨?_, ?_, ?_⟩
  · intro s path ok h1 h2
    simp [start_recording, h1, h2]
  · intro s files h1
    simp [action_transcribe, h1]
  · intro cmds
    exact runSession_aux cmds initSession (Or.inl rfl)

/-- Concrete instantiation of `c4_mutual_exclusion`: a transcription-active
state rejects start-recording unchanged, and a recording-active state rejects
start-transcription unchanged. -/
theorem c4_mutual_exclusion_witness :
    start_recording ⟨false, true, none, none⟩ "r.wav" true
      = (⟨false, true, none, none⟩, some "Cannot record while transcription is in progress") ∧
    action_transcribe ⟨true, false, some "cur.wav", none⟩ []
      = (⟨true, false, some "cur.wav", none⟩, some "Cannot transcribe while recording") :=
  ⟨c4_mutual_exclusion.1 ⟨false, true, none, none⟩ "r.wav" true rfl rfl,
   c4_mutual_exclusion.2.1 ⟨true, false, some "cur.wav", none⟩ [] rfl⟩

/-- C5 counterexample: with the recording file existing but empty (size 0),
`finish_recording` still auto-starts transcription, so auto-start is not
equivalent to "file exists and is non-empty". -/
theorem c5_autostart_counterexample :
    ¬ ((finish_recording ⟨true, false, some "rec.wav", none⟩ true 0).2.1
        = ((some "rec.wav" : Option String).isSome && true && decide (0 < 0))) := by
  decide

/-- C5 amended: when the recording tool exits, transcription is auto-started
if and only if a current recording path is set and the file exists — the
file's size is not consulted (even a zero-byte file triggers transcription);
otherwise the process handle is dropped, no transcription is started and the
failure is reported. -/
theorem c5_autostart (s : Session) (e : Bool) (sz₁ sz₂ : Nat) :
    (finish_recording s e sz₁).2.1 = (s.currentRecording.isSome && e) ∧
    finish_recording s e sz₁ = finish_recording s e sz₂ ∧
    ((finish_recording s e sz₁).1).recording = false ∧
    ((finish_recording s e sz₁).1).transcribing
      = (s.transcribing || (s.currentRecording.isSome && e)) ∧
    (finish_recording s e sz₁).2.2
      = some (if s.currentRecording.isSome && e then "Recording saved"
              else "Recording failed or was cancelled") := by
  by_cases h : (s.currentRecording.isSome && e) = true <;>
    simp [finish_recording, h]

lemma foldl_max_spec :
    ∀ (l : List (String × Nat)) (a : String × Nat),
      (l.foldl (fun acc g => if acc.2 < g.2 then g else acc) a) ∈ a :: l ∧
      a.2 ≤ (l.foldl (fun acc g => if acc.2 < g.2 then g else acc) a).2 ∧
      ∀ x ∈ l, x.2 ≤ (l.foldl (fun acc g => if acc.2 < g.2 then g else acc) a).2 := by
  intro l
  induction l with
  | nil => intro a; simp
  | cons g l ih =>
      intro a
      simp only [List.foldl_cons]
      by_cases hc : a.2 < g.2
      · rw [if_pos hc]
        obtain ⟨h1, h2, h3⟩ := ih g
        refine ⟨List.mem_cons_of_mem a h1, le_trans (le_of_lt hc) h2, ?_⟩
        intro x hx
        rcases List.mem_cons.mp hx with rfl | hx2
        · exact h2
        · exact h3 x hx2
      · rw [if_neg hc]
        obtain ⟨h1, h2, h3⟩ := ih a
        refine ⟨?_, h2, ?_⟩
        · rcases List.mem_cons.mp h1 with h | h
          · rw [h]; exact List.mem_cons_self a (g :: l)
          · exact List.mem_cons_of_mem a (List.mem_cons_of_mem g h)
        · intro x hx
          rcases List.mem_cons.mp hx with rfl | hx2
          · exact le_trans (Nat.le_of_not_lt hc) h2
          · exact h3 x hx2

/-- C8: the audio source for start-transcription is resolved in exactly this
order: the explicitly selected file, else the most recently finished
recording, else the most-recently-modified audio file of the recordings
directory; when all three are absent the request is rejected with a reason and
the session state is unchanged (no pipeline started). -/
theorem c8_resolution :
    (∀ (cur : Option String) (files : List (String × Nat)) (f : String),
        resolve_audio (some f) cur files = some f) ∧
    (∀ (files : List (String × Nat)) (f : String),
        resolve_audio none (some f) files = some f) ∧
    (∀ (a : String × Nat) (files : List (String × Nat)),
        ∃ g : String × Nat, g ∈ a :: files ∧
          resolve_audio none none (a :: files) = some g.1 ∧
          ∀ x ∈ a :: files, x.2 ≤ g.2) ∧
    resolve_audio none none [] = none ∧
    (∀ (s : Session) (files : List (String × Nat)),
        s.recording = false → s.transcribing = false →
        resolve_audio s.selectedFile s.currentRecording files = none →
        action_transcribe s files = (s, some "No audio files found")) := by
  refine ⟨?_, ?_, ?_, rfl, ?_⟩
  · intro cur files f; rfl
  · intro files f; rfl
  · intro a files
    obtain ⟨h1, h2, h3⟩ := foldl_max_spec files a
    refine ⟨files.foldl (fun acc x => if acc.2 < x.2 then x else acc) a, h1, ?_, ?_⟩
    · rfl
    · intro x hx
      rcases List.mem_cons.mp hx with rfl | hx2
      · exact h2
      · exact h3 x hx2
  · intro s files h1 h2 h3
    simp [action_transcribe, h1, h2, h3]

/-- Concrete instantiation of `c8_resolution`: the explicitly selected file
wins, and with no candidates the request is rejected unchanged. -/
theorem c8_resolution_witness :
    resolve_audio (some "picked.wav") (some "rec.wav") [("old.wav", 3)] = some "picked.wav" ∧
    action_transcribe initSession [] = (initSession, some "No audio files found") :=
  ⟨c8_resolution.1 (some "rec.wav") [("old.wav", 3)] "picked.wav",
   c8_resolution.2.2.2.2 initSession [] rfl rfl rfl⟩

/-! ### Pipeline run and model cache (tui.py, run_transcription lines 1030-1174) -/

/-- A loaded `WhisperModel` instance, remembered with the size and device it
was constructed with (`WhisperModel(model_size, device=device, ...)`). -/
structure WModel where
  size : String
  device : String
deriving DecidableEq

/-- The model-cache step of `run_transcription` (tui.py 1084-1090): the model
is reloaded when `self._model is None or self._model_size != model_size`, and
only `_model` and `_model_size` are updated — the device is not part of the
cache key. Takes and returns the pair (`_model`, `_model_size`); also returns
the instance used for this run. -/
def acquire_model (m : Option WModel) (msize : Option String)
    (modelSize device : String) : WModel × Option WModel × Option String :=
  match m, msize == some modelSize with
  | some mm, true => (mm, some mm, msize)
  | _, _ => (⟨modelSize, device⟩, some ⟨modelSize, device⟩, some modelSize)

/-- The terminal state of one pipeline run, as shown by the status indicator. -/
inductive RunStatus where
  | done : RunStatus
  | error : RunStatus
deriving DecidableEq

/-- The body written by `run_transcription` (tui.py 1131-1151): one line per
stripped segment text, plus a blank line after every 5th segment
(`segment_count % 5 == 0`); `count` is the number of segments already written. -/
def tuiBodyAux : Nat → List String → String
  | _, [] => ""
  | count, t :: ts =>
      strip t ++ "\n" ++ (if (count + 1) % 5 == 0 then "\n" else "")
        ++ tuiBodyAux (count + 1) ts

/-- The complete transcript body written by `run_transcription`. -/
def tuiBody (texts : List String) : String :=
  tuiBodyAux 0 texts

/-- The header block written by `run_transcription` (tui.py 1121-1126). -/
def tuiHeader (audioName modelSize language : String) : String :=
  "# Transcription Results\n\n**Audio File:** " ++ audioName ++
    "\n\n**Model:** " ++ modelSize ++ "\n\n**Language:** " ++ language ++ "\n\n---\n\n"

/-- The outcome of one `run_transcription` call. -/
structure PipelineRun where
  status : RunStatus
  errMsg : Option String
  modelUsed : Option WModel
  transcriptFile : Option String
deriving DecidableEq

/-- One `run_transcription` call (tui.py 1030-1174), abstracted over the
external collaborators: the converter's exit code, the detected language and
the segment texts the model produces. On a non-zero converter exit the run
logs the fixed message "Audio conversion failed", sets the error status and
returns before the model is touched and before any output file is created;
otherwise the model is acquired through the cache and the transcript file is
written. Returns the run outcome and the updated (`_model`, `_model_size`). -/
def run_transcription (m : Option WModel) (msize : Option String)
    (convExit : Nat) (audioName modelSize device detectedLang : String)
    (texts : List String) : PipelineRun × Option WModel × Option String :=
  if convExit ≠ 0 then
    ({ status := .error, errMsg := some "Audio conversion failed",
       modelUsed := none, transcriptFile := none }, m, msize)
  else
    let (used, m1, msize1) := acquire_model m msize modelSize device
    ({ status := .done, errMsg := none, modelUsed := some used,
       transcriptFile := some (tuiHeader audioName modelSize detectedLang ++ tuiBody texts) },
     m1, msize1)

/-- C6 counterexample: the runs for converter exit codes 1 and 2 are
byte-for-byte identical — both end in the fixed report
"Audio conversion failed" — so the terminal error cannot carry the exit code;
in particular the reason is not `ConversionFailed{1}`. -/
theorem c6_exitcode_counterexample :
    (run_transcription none none 1 "a.wav" "medium" "cpu" "ru" ["x"]).1
      = (run_transcription none none 2 "a.wav" "medium" "cpu" "ru" ["x"]).1 ∧
    (run_transcription none none 1 "a.wav" "medium" "cpu" "ru" ["x"]).1.status
      = RunStatus.error ∧
    (run_transcription none none 1 "a.wav" "medium" "cpu" "ru" ["x"]).1.errMsg
      ≠ some "ConversionFailed\x7b1\x7d" := by
  refine ⟨rfl, rfl, ?_⟩
  decide

/-- C6 amended: a non-zero converter exit aborts the pipeline immediately with
a terminal error whose reason is the fixed message "Audio conversion failed"
(it does not include the exit code), before the model is loaded and before any
transcript file is created, and without touching the model cache. -/
theorem c6_conversion_abort (m : Option WModel) (msize : Option String)
    (convExit : Nat) (audioName modelSize device detectedLang : String)
    (texts : List String) (h : convExit ≠ 0) :
    (run_transcription m msize convExit audioName modelSize device detectedLang texts).1
      = { status := .error, errMsg := some "Audio conversion failed",
          modelUsed := none, transcriptFile := none } ∧
    (run_transcription m msize convExit audioName modelSize device detectedLang texts).2
      = (m, msize) := by
  constructor <;> simp [run_transcription, h]

/-- Concrete instantiation of `c6_conversion_abort` at exit code 1. -/
theorem c6_conversion_abort_witness :
    (run_transcription none none 1 "a.wav" "tiny" "cpu" "ru" ["x"]).1
      = { status := .error, errMsg := some "Audio conversion failed",
          modelUsed := none, transcriptFile := none } ∧
    (run_transcription none none 1 "a.wav" "tiny" "cpu" "ru" ["x"]).2
      = (none, none) :=
  c6_conversion_abort none none 1 "a.wav" "tiny" "cpu" "ru" ["x"] (by decide)

/-- C10: the model cache is keyed only by model size: after a first run that
loads size `s` on device `d1`, a second run requesting size `s` on any device
`d2` reuses the cached instance unchanged — the transcription is performed by
the model constructed for `d1`, and the requested `d2` has no effect. -/
theorem c10_cache_ignores_device (s d1 d2 : String)
    (a1 l1 a2 l2 : String) (ts1 ts2 : List String) :
    ((run_transcription
        (run_transcription none none 0 a1 s d1 l1 ts1).2.1
        (run_transcription none none 0 a1 s d1 l1 ts1).2.2
        0 a2 s d2 l2 ts2).1).modelUsed = some ⟨s, d1⟩ ∧
    ((run_transcription none none 0 a1 s d1 l1 ts1).1).modelUsed = some ⟨s, d1⟩ := by
  constructor <;> simp [run_transcription, acquire_model]

/-! ### Stopping the recording process group (tui.py, stop_recording lines 978-991) -/

/-- How the recording process group reacts to the graceful termination signal:
it either exits within the bounded wait, or keeps running (ignores SIGTERM). -/
inductive ProcBehavior where
  | exitsOnTerm : ProcBehavior
  | ignoresTerm : ProcBehavior
deriving DecidableEq

/-- The recording process group as observed by the supervisor: live with a
given behavior, or already gone. -/
inductive ProcState where
  | alive (b : ProcBehavior) : ProcState
  | gone : ProcState
deriving DecidableEq

/-- The two signals `stop_recording` sends with `os.killpg`. -/
inductive Signal where
  | sigterm : Signal
  | sigkill : Signal
deriving DecidableEq

/-- `os.killpg` semantics: raises `ProcessLookupError` (modelled as `.error`)
when the group is gone; SIGTERM kills the group only if it does not ignore it;
SIGKILL always kills it. -/
def killpg : ProcState → Signal → Except Unit ProcState
  | .gone, _ => .error ()
  | .alive .exitsOnTerm, .sigterm => .ok .gone
  | .alive .ignoresTerm, .sigterm => .ok (.alive .ignoresTerm)
  | .alive _, .sigkill => .ok .gone

/-- `process.wait(timeout=5)`: returns once the process has exited, raises
`TimeoutExpired` (modelled as `.error`) if it is still alive at the deadline. -/
def waitUpTo : ProcState → Except Unit ProcState
  | .gone => .ok .gone
  | .alive b => .error ()

/-- `stop_recording` (tui.py 978-991): SIGTERM to the process group, bounded
wait, and on `ProcessLookupError` or `TimeoutExpired` an unconditional SIGKILL
to the group whose own `ProcessLookupError` is swallowed. Returns the final
process state, whether any error escaped to the caller, and whether the
forceful kill was attempted. -/
def stop_recording_proc (p : ProcState) : ProcState × Bool × Bool :=
  match killpg p .sigterm with
  | .ok p1 =>
      match waitUpTo p1 with
      | .ok p2 => (p2, false, false)
      | .error _ =>
          match killpg p1 .sigkill with
          | .ok p2 => (p2, false, true)
          | .error _ => (.gone, false, true)
  | .error _ =>
      match killpg p .sigkill with
      | .ok p2 => (p2, false, true)
      | .error _ => (.gone, false, true)

/-- C7: for every recording process-group state — already gone, exiting on the
graceful signal, or ignoring it — `stop_recording` leaves no live process and
no orphaned process group, never surfaces an error (process-not-found is
swallowed), and when the group ignores the graceful signal the escalation to a
forceful kill is unconditional. -/
theorem c7_stop_terminates_group :
    (∀ p : ProcState, (stop_recording_proc p).1 = ProcState.gone ∧
      (stop_recording_proc p).2.1 = false) ∧
    (stop_recording_proc (ProcState.alive ProcBehavior.ignoresTerm)).2.2 = true := by
  refine ⟨?_, rfl⟩
  intro p
  cases p with
  | gone => exact ⟨rfl, rfl⟩
  | alive b => cases b <;> exact ⟨rfl, rfl⟩

/-! ### Throughput metric (tui.py line 1138; transcribe.py lines 186-187) -/

/-- `char_rate = total_chars / elapsed_time if elapsed_time > 0 else 0`, the
chars-per-second figure of every published progress snapshot, with real
arithmetic modelled by the rationals. -/
def char_rate (totalChars : Nat) (elapsed : ℚ) : ℚ :=
  if 0 < elapsed then (totalChars : ℚ) / elapsed else 0

/-- C9: in every progress snapshot the chars-per-second value is nonnegative
and equals `totalChars / elapsedSeconds`, with the value 0 when
`elapsedSeconds = 0`. -/
theorem c9_char_rate (totalChars : Nat) (elapsed : ℚ) (h : 0 ≤ elapsed) :
    0 ≤ char_rate totalChars elapsed ∧
    char_rate totalChars elapsed
      = (if elapsed = 0 then 0 else (totalChars : ℚ) / elapsed) := by
  unfold char_rate
  rcases lt_or_eq_of_le h with hpos | hzero
  · rw [if_pos hpos, if_neg (ne_of_gt hpos)]
    exact ⟨div_nonneg (Nat.cast_nonneg totalChars) (le_of_lt hpos), rfl⟩
  · rw [if_neg (by rw [← hzero]; exact lt_irrefl 0), if_pos hzero.symm]
    exact ⟨le_refl 0, rfl⟩

/-- Concrete instantiation of `c9_char_rate`: 10 characters in 2 seconds. -/
theorem c9_char_rate_witness :
    (0 : ℚ) ≤ 2 ∧
    (0 ≤ char_rate 10 2 ∧
      char_rate 10 2 = (if (2 : ℚ) = 0 then 0 else (10 : ℚ) / 2)) :=
  ⟨by norm_num, c9_char_rate 10 2 (by norm_num)⟩

end OfflineSTT
